import Mathlib

/-!
# Verification of the mpi4pyd buffer-communication layer

Shallow embedding of `mpi4pyd/MPI/_buffer_comm.py` and `mpi4pyd/dummyMPI.py`.

Conventions of the embedding:
* A NumPy `ndarray` is a shape (list of dimension extents), a dtype name and
  the flattened (row-major) contents.  Element values are modelled as `Int`;
  the claims under study never depend on the numeric kind of the elements.
* The MPI transport (an external collaborator of this repository) delivers
  the root's message to every rank for `bcast`/`Bcast` and packs every rank's
  flat send buffer into the root's receive rows for `Gatherv`.  Its generic
  (pickle-based) path fails with `OverflowError` when the serialized payload
  exceeds `2^31 - 1` bytes.
* Python objects that matter only by identity (communicators, wrappers) are
  modelled as indices into a world of objects, mirroring `hex(id(obj))` keys.
-/

/-- `2**31 - 1`, the transport's serialized-size ceiling for the generic
(pickle) path. -/
def MAX_INT32 : Nat := 2 ^ 31 - 1

/-- A NumPy `ndarray`: shape, dtype name, and the raveled (flattened) data. -/
structure NDArray where
  shape : List Nat
  dtype : String
  data : List Int
deriving DecidableEq

/-- A Python value handed to `BufferComm.bcast`: either a NumPy array
(typed-buffer payload) or a generic object, of which only the class name
(`obj.__class__.__name__`) and the byte size (`obj.__sizeof__()`) are
relevant to the code under study. -/
inductive PyObj where
  | arr (a : NDArray)
  | gen (typeName : String) (byteSize : Nat)
deriving DecidableEq

/-- The message the root sends through the generic primitive in
`BufferComm.bcast`: either the descriptor list
`['NumPy ndarray', [obj.shape, obj.dtype]]` or the list
`[obj.__class__.__name__, obj]`.  The receiver's test
`obj_type == 'NumPy ndarray'` distinguishes exactly these two forms, because
a Python class name declared by a `class` statement is an identifier and can
never equal the string `'NumPy ndarray'` (which contains a space). -/
inductive BcastMsg where
  | ndarrayDesc (shape : List Nat) (dtype : String)
  | objMsg (typeName : String) (obj : PyObj)
deriving DecidableEq

/-- What a single rank's call to `BufferComm.bcast` or `BufferComm.gather`
does locally: return a value, raise `e13tools.InputError` reporting an actual
and a maximal byte size, or block forever inside a collective whose root
never sent (the receivers of a root that raised wait indefinitely). -/
inductive Outcome (α : Type) where
  | ret (v : α)
  | raised (actualSize maxSize : Nat)
  | blocked
deriving DecidableEq

namespace BufferComm

/-- The root half of the generic broadcast in `BufferComm.bcast`
(`_buffer_comm.py`, lines 158-178): a NumPy array is announced with the
descriptor `['NumPy ndarray', [obj.shape, obj.dtype]]`; any other object is
sent as `[obj.__class__.__name__, obj]`, and the transport's generic path
raises `OverflowError` (surfaced by the source as `InputError` with
`obj.__sizeof__()` and `2**31-1`) when the object's byte size exceeds
`2**31 - 1`. -/
def bcastSendMsg : PyObj → Except (Nat × Nat) BcastMsg
  | PyObj.arr a => Except.ok (BcastMsg.ndarrayDesc a.shape a.dtype)
  | PyObj.gen name sz =>
      if MAX_INT32 < sz then Except.error (sz, MAX_INT32)
      else Except.ok (BcastMsg.objMsg name (PyObj.gen name sz))

/-- The receiver half of `BufferComm.bcast` (`_buffer_comm.py`, lines
181-191): destructure the received list into `obj_type, obj`; when
`obj_type == 'NumPy ndarray'`, allocate `np.empty(shape, dtype)` and receive
the raw contents through the typed `Bcast` (so the contents become the
root's flattened data `rootData`); otherwise the received object is final. -/
def bcastRecvMsg (msg : BcastMsg) (rootData : List Int) : PyObj :=
  match msg with
  | BcastMsg.ndarrayDesc shape dtype => PyObj.arr ⟨shape, dtype, rootData⟩
  | BcastMsg.objMsg _ o => o

/-- The flattened contents the root pushes through the typed `Bcast`
primitive (only used when the payload is an array). -/
def rootRaveled : PyObj → List Int
  | PyObj.arr a => a.data
  | PyObj.gen _ _ => []

/-- One rank's execution of `BufferComm.bcast(obj, root)`
(`_buffer_comm.py`, lines 134-194).  `objs` lists every rank's local `obj`
argument; only the root's is ever transmitted.  The root returns its own
`obj` after sending (or raises on an oversized generic payload, in which
case the receivers block forever inside `comm.bcast`). -/
def bcast (objs : List PyObj) (rank root : Nat) : Outcome PyObj :=
  let rootObj := objs.getD root (PyObj.gen "object" 0)
  if rank = root then
    match bcastSendMsg rootObj with
    | Except.error (sz, mx) => Outcome.raised sz mx
    | Except.ok _ => Outcome.ret rootObj
  else
    match bcastSendMsg rootObj with
    | Except.error _ => Outcome.blocked
    | Except.ok msg => Outcome.ret (bcastRecvMsg msg (rootRaveled rootObj))

end BufferComm

/-! ## The typed gather path of `BufferComm.gather` -/

/-- The `getD` default array used throughout: an empty 0-d array. -/
def emptyArr : NDArray := ⟨[], "", []⟩

namespace BufferComm

/-- Placeholder substitution in `BufferComm.gather` (`_buffer_comm.py`,
lines 233-235): a rank whose array has a zero-sized dimension replaces it by
`np.empty([1]*obj.ndim, dtype=obj.dtype)` — a single-element array of the
same dimensionality and dtype whose (uninitialized) content is modelled by
`junk`.  `np.all(obj.shape)` is the test that every extent is nonzero. -/
def substPlaceholder (a : NDArray) (junk : Int) : NDArray :=
  if a.shape.all (fun d => d != 0) then a
  else { shape := List.replicate a.shape.length 1, dtype := a.dtype, data := [junk] }

/-- `np.max(shapes, axis=0)`: the per-axis maximum of the gathered shapes,
a reduction by pointwise `max` over the list of shapes (all shapes must have
the same number of dimensions for `np.max` not to fail). -/
def axisMax : List (List Nat) → List Nat
  | [] => []
  | s :: rest => rest.foldl (fun acc t => List.zipWith max acc t) s

/-- `np.product(np.max(shapes, axis=0))`: the number of elements of one row
of the root's receive buffer (`_buffer_comm.py`, lines 240-241). -/
def rowLen (shapes : List (List Nat)) : Nat := (axisMax shapes).prod

/-- The element capacity of the receive buffer
`np.empty((self._size, np.product(np.max(shapes, axis=0))), dtype=obj.dtype)`
the root allocates (`_buffer_comm.py`, lines 240-244). -/
def buffCapacity (size : Nat) (shapes : List (List Nat)) : Nat :=
  size * rowLen shapes

/-- The effect of `comm.Gatherv(obj.ravel(), buff, root=root)` on the root's
receive buffer, viewed as rows: rank `i`'s flattened send buffer lands at
the start of row `i`, the tail of the row keeping its uninitialized
(`np.empty`) contents. -/
def gathervFill (sends initRows : List (List Int)) : List (List Int) :=
  List.zipWith (fun s row => s ++ row.drop s.length) sends initRows

/-- The reconstruction loop of `BufferComm.gather` (`_buffer_comm.py`,
lines 249-258): for each rank, slice `array[:np.product(shape)]` out of its
row and reshape it to that rank's originally-reported shape. -/
def reconstruct (rows : List (List Int)) (shapes : List (List Nat))
    (dtype : String) : List NDArray :=
  List.zipWith
    (fun row shape => { shape := shape, dtype := dtype, data := row.take shape.prod })
    rows shapes

/-- One rank's execution of the typed (NumPy) path of
`BufferComm.gather(obj, root)` (`_buffer_comm.py`, lines 229-266).
`arrs` lists every rank's local array, `junks` the uninitialized content a
rank's placeholder would carry, and `initRows` the uninitialized rows of the
root's `np.empty` receive buffer.  The shapes are gathered first, then each
rank sends its (possibly placeholder-substituted) raveled buffer; the root
reconstructs the per-rank arrays, every other rank returns `None`. -/
def gather (arrs : List NDArray) (rank root : Nat) (junks : List Int)
    (initRows : List (List Int)) : Option (List NDArray) :=
  let shapes := arrs.map (fun a => a.shape)
  let objs := List.zipWith substPlaceholder arrs junks
  if rank = root then
    let dtype := (objs.getD root emptyArr).dtype
    let rows := gathervFill (objs.map (fun o => o.data)) initRows
    some (reconstruct rows shapes dtype)
  else
    none

/-- The maximum flattened element count across the reported shapes — the
quantity the spec says sizes one row of the receive buffer. -/
def maxFlatCount (shapes : List (List Nat)) : Nat :=
  (shapes.map List.prod).foldr max 0

end BufferComm

/-! ## The instance registry: `get_BufferComm_obj` -/

/-- The Python class of an object, as far as `get_BufferComm_obj` can
distinguish it: a real `MPI.Intracomm`, a `dummyMPI.Intracomm`, a
`BufferComm` subclass of either (the class `BufferComm(comm.__class__,
object)` defined inside the factory), or anything else. -/
inductive PyClass where
  | mpiIntracomm
  | dummyIntracomm
  | bufMpi
  | bufDummy
  | other
deriving DecidableEq

/-- Is this class one of the two raw intra-communicator classes? -/
def isRawIntracomm : PyClass → Bool
  | PyClass.mpiIntracomm => true
  | PyClass.dummyIntracomm => true
  | _ => false

/-- Is this class a `BufferComm` class created by the factory? -/
def isBufClass : PyClass → Bool
  | PyClass.bufMpi => true
  | PyClass.bufDummy => true
  | _ => false

/-- `isinstance(comm, (MPI.Intracomm, dummyMPI.Intracomm))`: true for the
raw classes and for the `BufferComm` subclasses of either. -/
def isIntracommClass (c : PyClass) : Bool :=
  isRawIntracomm c || isBufClass c

/-- The class `BufferComm(comm.__class__, object)` of the wrapper the
factory builds around an object of class `c`. -/
def wrapClass : PyClass → PyClass
  | PyClass.mpiIntracomm => PyClass.bufMpi
  | PyClass.bufMpi => PyClass.bufMpi
  | PyClass.dummyIntracomm => PyClass.bufDummy
  | PyClass.bufDummy => PyClass.bufDummy
  | PyClass.other => PyClass.other

/-- The process's world of Python objects, as `get_BufferComm_obj` sees it.
Object identities (`hex(id(obj))`) are indices into `classes`; a fresh
object gets the next index.  `registry` is the module-level
`buffer_comm_registry` dict as an association list (insertion order), and
`commWorld` is the identity of `MPI.COMM_WORLD`. -/
structure PyWorld where
  classes : List PyClass
  registry : List (Nat × Nat)
  commWorld : Nat
deriving DecidableEq

/-- The class of object `i` (out-of-range indices denote no object and get
class `other`, which every type test rejects). -/
def PyWorld.classOf (w : PyWorld) (i : Nat) : PyClass :=
  w.classes.getD i PyClass.other

/-- `buffer_comm_registry[hex(id(comm))]`, as an association-list lookup. -/
def regLookup (reg : List (Nat × Nat)) (k : Nat) : Option Nat :=
  match reg.find? (fun p => p.1 == k) with
  | some p => some p.2
  | none => none

/-- `buffer_comm_registry.values()`. -/
def regValues (reg : List (Nat × Nat)) : List Nat :=
  reg.map Prod.snd

/-- A raised Python exception of `get_BufferComm_obj`. -/
inductive PyErr where
  | typeError
deriving DecidableEq

instance {E A : Type} [DecidableEq E] [DecidableEq A] : DecidableEq (Except E A) :=
  fun x y =>
    match x, y with
    | Except.ok a, Except.ok b =>
        if h : a = b then isTrue (by rw [h])
        else isFalse (fun hc => h (Except.ok.inj hc))
    | Except.error a, Except.error b =>
        if h : a = b then isTrue (by rw [h])
        else isFalse (fun hc => h (Except.error.inj hc))
    | Except.ok _, Except.error _ => isFalse (fun hc => Except.noConfusion hc)
    | Except.error _, Except.ok _ => isFalse (fun hc => Except.noConfusion hc)

/-- `get_BufferComm_obj(comm)` (`_buffer_comm.py`, lines 31-287): substitute
`MPI.COMM_WORLD` for `None`; raise `TypeError` unless the argument is an
(`MPI` or `dummyMPI`) intra-communicator; return the registered wrapper if
the identity is a registry key; return the argument itself if it is already
a registered wrapper; otherwise build a fresh `BufferComm` instance around
it, register it under the argument's identity and return it.  The world is
returned unchanged except in the construction case. -/
def get_BufferComm_obj (w : PyWorld) (comm? : Option Nat) :
    PyWorld × Except PyErr Nat :=
  let comm := match comm? with
    | none => w.commWorld
    | some c => c
  if ¬ isIntracommClass (w.classOf comm) then
    (w, Except.error PyErr.typeError)
  else
    match regLookup w.registry comm with
    | some bc => (w, Except.ok bc)
    | none =>
        if comm ∈ regValues w.registry then
          (w, Except.ok comm)
        else
          ({ classes := w.classes ++ [wrapClass (w.classOf comm)],
             registry := w.registry ++ [(comm, w.classes.length)],
             commWorld := w.commWorld },
           Except.ok w.classes.length)

/-- Well-formedness of the world with respect to the registry: every
registry value is a factory-made `BufferComm` object and no registry key
is one (keys are the raw communicators that got wrapped; `BufferComm`
instances are never used as keys because the factory returns early on
them). -/
def PyWorld.WF (w : PyWorld) : Prop :=
  ∀ p ∈ w.registry, isBufClass (w.classOf p.2) = true ∧
    isBufClass (w.classOf p.1) = false

instance (w : PyWorld) : Decidable w.WF := by
  unfold PyWorld.WF
  infer_instance

/-! ## Attribute delegation of the `BufferComm` wrapper -/

/-- A Python attribute value, as far as the delegation logic inspects it:
either a plain data value or a bound/builtin method (an instance of
`types.BuiltinMethodType` or `types.MethodType`). -/
inductive AttrVal where
  | data (v : Int)
  | method (m : String)
deriving DecidableEq

/-- `isinstance(getattr(comm, name), (BuiltinMethodType, MethodType))`. -/
def isMethodVal : AttrVal → Bool
  | AttrVal.method _ => true
  | AttrVal.data _ => false

/-- An object's attribute table (`dir(obj)` with the attribute values), as
an association list from names to values. -/
structure PyAttrs where
  attrs : List (String × AttrVal)
deriving DecidableEq

/-- `getattr(obj, n)` over an attribute table; `none` is `AttributeError`.
`n in dir(obj)` is `lookupAttr obj.attrs n ≠ none`. -/
def lookupAttr (l : List (String × AttrVal)) (n : String) : Option AttrVal :=
  match l.find? (fun p => p.1 == n) with
  | some p => some p.2
  | none => none

/-- `setattr(obj, n, v)`: replace the binding of `n`, or append it. -/
def setAttrList (l : List (String × AttrVal)) (n : String) (v : AttrVal) :
    List (String × AttrVal) :=
  match l with
  | [] => [(n, v)]
  | p :: rest => if p.1 == n then (n, v) :: rest else p :: setAttrList rest n v

/-- `delattr(obj, n)`: drop the binding of `n`. -/
def removeAttrList (l : List (String × AttrVal)) (n : String) :
    List (String × AttrVal) :=
  match l with
  | [] => []
  | p :: rest => if p.1 == n then rest else p :: removeAttrList rest n

namespace BufferComm

/-- `BufferComm.__getattribute__` (`_buffer_comm.py`, lines 107-111): if
`name in dir(comm)` and the wrapped communicator's value for it is not a
method, return the wrapped communicator's attribute; otherwise fall back to
`super().__getattribute__`, i.e. ordinary lookup on the wrapper itself
(`none` models `AttributeError`). -/
def getattribute (comm self : PyAttrs) (name : String) : Option AttrVal :=
  match lookupAttr comm.attrs name with
  | some v => if ¬ isMethodVal v = true then some v else lookupAttr self.attrs name
  | none => lookupAttr self.attrs name

/-- `BufferComm.__setattr__` (`_buffer_comm.py`, lines 114-119): same test;
the delegated branch mutates the wrapped communicator, the other branch the
wrapper.  Returns the pair (wrapped communicator, wrapper) after the call. -/
def setattr (comm self : PyAttrs) (name : String) (value : AttrVal) :
    PyAttrs × PyAttrs :=
  match lookupAttr comm.attrs name with
  | some v =>
      if ¬ isMethodVal v = true then (⟨setAttrList comm.attrs name value⟩, self)
      else (comm, ⟨setAttrList self.attrs name value⟩)
  | none => (comm, ⟨setAttrList self.attrs name value⟩)

/-- `BufferComm.__delattr__` (`_buffer_comm.py`, lines 122-127): same test;
`none` models the `AttributeError` of `super().__delattr__` on a name the
wrapper itself does not carry. -/
def delattr (comm self : PyAttrs) (name : String) : Option (PyAttrs × PyAttrs) :=
  match lookupAttr comm.attrs name with
  | some v =>
      if ¬ isMethodVal v = true then some (⟨removeAttrList comm.attrs name⟩, self)
      else (lookupAttr self.attrs name).map
        (fun _ => (comm, ⟨removeAttrList self.attrs name⟩))
  | none => (lookupAttr self.attrs name).map
      (fun _ => (comm, ⟨removeAttrList self.attrs name⟩))

end BufferComm

/-! ## The Emulation Layer: `dummyMPI.Comm` -/

/-- The mutable store of NumPy buffer objects held by the emulated process:
cell `r` is the flat contents of the array object with identity `r`. -/
abbrev Heap := List (List Int)

/-- A buffer argument to the emulated buffer collectives: an array object
(a reference into the heap), a list or tuple of buffers, Python `None`, or
a Python scalar (which only `reduce`'s `np.isscalar` test distinguishes). -/
inductive Buf where
  | ref (r : Nat)
  | seq (bs : List Buf)
  | null
  | scalar (v : Int)

namespace dummyMPI

/-- `Comm.bcast(obj, ...)` (`dummyMPI.py`, line 146): the input unchanged. -/
def Comm.bcast {α : Type} (obj : α) : α := obj

/-- `Comm.Bcast(buf, ...)` (`dummyMPI.py`, line 143): the buffer unchanged. -/
def Comm.Bcast {α : Type} (buf : α) : α := buf

/-- `Comm.gather(sendobj, ...)` (`dummyMPI.py`, line 152): the single input
wrapped in a one-element list. -/
def Comm.gather {α : Type} (sendobj : α) : List α := [sendobj]

/-- `Comm.scatter(sendobj, ...)` (`dummyMPI.py`, line 176): `sendobj[0]`
(`none` models the `IndexError` on an empty sequence). -/
def Comm.scatter {α : Type} (sendobj : List α) : Option α := sendobj.head?

/-- `Comm._get_buffer(buff)` (`dummyMPI.py`, lines 88-94): a list or tuple
is replaced by its first element (`none` models the `IndexError` on an
empty one); anything else is returned unchanged. -/
def Comm.get_buffer : Buf → Option Buf
  | Buf.seq bs => bs.head?
  | b => some b

/-- `Comm._scatter_gather(sendbuf, recvbuf)` (`dummyMPI.py`, lines 96-108)
acting on the heap: unwrap both buffers; with no receive buffer return a
deep copy of the send payload (`copy.deepcopy`: a fresh heap cell for an
array); with a receive buffer assign the payload's contents into it
element-wise (`recvbuf[:] = sendbuf`) and return the receive buffer itself.
`none` models the Python exceptions of the unmodelled corners (empty
sequence argument, sequence payload after unwrapping, dangling reference,
shape-mismatched assignment). -/
def Comm.scatter_gather (h : Heap) (sendbuf recvbuf : Buf) :
    Option (Heap × Buf) := do
  let sb ← Comm.get_buffer sendbuf
  let rb ← Comm.get_buffer recvbuf
  match rb with
  | Buf.null =>
      match sb with
      | Buf.ref r => do
          let v ← h.get? r
          pure (h ++ [v], Buf.ref h.length)
      | Buf.null => pure (h, Buf.null)
      | Buf.scalar v => pure (h, Buf.scalar v)
      | Buf.seq _ => none
  | Buf.ref r =>
      match sb with
      | Buf.ref s => do
          let v ← h.get? s
          let old ← h.get? r
          if old.length = v.length then pure (h.set r v, Buf.ref r) else none
      | _ => none
  | _ => none

/-- `Comm.Gather` (`dummyMPI.py`, line 149). -/
def Comm.Gather (h : Heap) (sendbuf recvbuf : Buf) : Option (Heap × Buf) :=
  Comm.scatter_gather h sendbuf recvbuf

/-- `Comm.Gatherv` (`dummyMPI.py`, line 155). -/
def Comm.Gatherv (h : Heap) (sendbuf recvbuf : Buf) : Option (Heap × Buf) :=
  Comm.scatter_gather h sendbuf recvbuf

/-- `Comm.Scatter` (`dummyMPI.py`, line 173). -/
def Comm.Scatter (h : Heap) (sendbuf recvbuf : Buf) : Option (Heap × Buf) :=
  Comm.scatter_gather h sendbuf recvbuf

/-- `Comm.Scatterv` (`dummyMPI.py`, line 179). -/
def Comm.Scatterv (h : Heap) (sendbuf recvbuf : Buf) : Option (Heap × Buf) :=
  Comm.scatter_gather h sendbuf recvbuf

/-- `Comm.Reduce` (`dummyMPI.py`, line 164). -/
def Comm.Reduce (h : Heap) (sendbuf recvbuf : Buf) : Option (Heap × Buf) :=
  Comm.scatter_gather h sendbuf recvbuf

/-- `Comm.reduce(sendobj)` (`dummyMPI.py`, lines 167-171): a scalar is
returned unchanged; anything else goes through `_scatter_gather` with no
receive buffer. -/
def Comm.reduce (h : Heap) (sendobj : Buf) : Option (Heap × Buf) :=
  match sendobj with
  | Buf.scalar v => some (h, Buf.scalar v)
  | b => Comm.scatter_gather h b Buf.null

end dummyMPI

/-! ## Theorems -/

/-- C1, as stated, is false: an oversized generic payload makes the root
raise instead of returning the broadcast payload.  With two ranks and the
root broadcasting a generic object of `2^31` bytes, rank 0 (the root) does
not return the payload. -/
theorem c1_counterexample :
    BufferComm.bcast [PyObj.gen "bytes" (2 ^ 31), PyObj.gen "int" 0] 0 0 ≠
      Outcome.ret (PyObj.gen "bytes" (2 ^ 31)) := by
  decide

/-- C1 (amended): for every valid root and payload — except a generic
payload whose byte size exceeds the transport ceiling `2^31 - 1`, which
raises instead (claim C5) — `BufferComm.bcast` returns the root's payload on
every rank: the root returns its own original object, and every non-root
rank returns an array equal to the root's in shape, dtype and contents (for
a NumPy payload) or the received generic payload itself. -/
theorem c1_bcast_returns_root_payload (objs : List PyObj) (rank root : Nat)
    (_hroot : root < objs.length)
    (hsize : ∀ name sz, objs.getD root (PyObj.gen "object" 0) = PyObj.gen name sz →
      sz ≤ MAX_INT32) :
    BufferComm.bcast objs rank root =
      Outcome.ret (objs.getD root (PyObj.gen "object" 0)) := by
  unfold BufferComm.bcast
  cases hobj : objs.getD root (PyObj.gen "object" 0) with
  | arr a =>
      by_cases hr : rank = root <;>
        simp [hr, BufferComm.bcastSendMsg, BufferComm.bcastRecvMsg,
          BufferComm.rootRaveled, hobj]
  | gen name sz =>
      have hle : ¬ MAX_INT32 < sz := not_lt.mpr (hsize name sz hobj)
      by_cases hr : rank = root <;>
        simp [hr, BufferComm.bcastSendMsg, BufferComm.bcastRecvMsg,
          BufferComm.rootRaveled, hobj, hle]

/-- Witness for the amended C1 at concrete inputs: a 2×3 array broadcast
from root 0 in a 3-rank group reaches every rank unchanged. -/
theorem c1_bcast_returns_root_payload_witness :
    BufferComm.bcast
      [PyObj.arr ⟨[2, 3], "int64", [1, 2, 3, 4, 5, 6]⟩,
       PyObj.gen "int" 28, PyObj.gen "int" 28] 0 0 =
      Outcome.ret (PyObj.arr ⟨[2, 3], "int64", [1, 2, 3, 4, 5, 6]⟩) ∧
    BufferComm.bcast
      [PyObj.arr ⟨[2, 3], "int64", [1, 2, 3, 4, 5, 6]⟩,
       PyObj.gen "int" 28, PyObj.gen "int" 28] 1 0 =
      Outcome.ret (PyObj.arr ⟨[2, 3], "int64", [1, 2, 3, 4, 5, 6]⟩) :=
  ⟨c1_bcast_returns_root_payload
    [PyObj.arr ⟨[2, 3], "int64", [1, 2, 3, 4, 5, 6]⟩,
     PyObj.gen "int" 28, PyObj.gen "int" 28] 0 0 (by decide)
    (by intro name sz h; simp at h),
   c1_bcast_returns_root_payload
    [PyObj.arr ⟨[2, 3], "int64", [1, 2, 3, 4, 5, 6]⟩,
     PyObj.gen "int" 28, PyObj.gen "int" 28] 1 0 (by decide)
    (by intro name sz h; simp at h)⟩

/-- C5: when the root's generic payload exceeds the `2^31 - 1` byte ceiling,
the root raises an error reporting the payload's byte size and the ceiling,
while every non-root rank raises nothing (it blocks in the collective). -/
theorem c5_oversized_payload (objs : List PyObj) (root : Nat)
    (name : String) (sz : Nat)
    (hobj : objs.getD root (PyObj.gen "object" 0) = PyObj.gen name sz)
    (hbig : MAX_INT32 < sz) :
    BufferComm.bcast objs root root = Outcome.raised sz (2 ^ 31 - 1) ∧
      ∀ rank, rank ≠ root → BufferComm.bcast objs rank root = Outcome.blocked := by
  constructor
  · simp only [BufferComm.bcast, hobj, BufferComm.bcastSendMsg, if_pos hbig]
    simp [MAX_INT32]
  · intro rank hrank
    simp only [BufferComm.bcast, hobj, BufferComm.bcastSendMsg, if_pos hbig]
    simp [hrank]

/-- Witness for C5 at a concrete input: a `2^31`-byte generic payload at
root 0 of a 2-rank group raises `(2^31, 2^31 - 1)` on the root only. -/
theorem c5_oversized_payload_witness :
    BufferComm.bcast [PyObj.gen "bytes" (2 ^ 31), PyObj.gen "int" 0] 0 0 =
      Outcome.raised (2 ^ 31) (2 ^ 31 - 1) ∧
    BufferComm.bcast [PyObj.gen "bytes" (2 ^ 31), PyObj.gen "int" 0] 1 0 =
      Outcome.blocked := by
  have h := c5_oversized_payload
    [PyObj.gen "bytes" (2 ^ 31), PyObj.gen "int" 0] 0 "bytes" (2 ^ 31)
    (by decide) (by decide)
  exact ⟨h.1, h.2 1 (by decide)⟩


/-! ### Arithmetic of `np.max(shapes, axis=0)` under the gather invariant -/

lemma zipWith_max_self (l : List Nat) : List.zipWith max l l = l := by
  induction l with
  | nil => rfl
  | cons x xs ih => simp [List.zipWith, ih]

lemma zipWith_max_set (base : List Nat) (k a b : Nat) :
    List.zipWith max (base.set k a) (base.set k b) = base.set k (max a b) := by
  induction base generalizing k with
  | nil => simp
  | cons x xs ih =>
      cases k with
      | zero => simp [List.set, zipWith_max_self]
      | succ k => simp [List.set, ih k]

lemma axisMax_map_set (base : List Nat) (k : Nat) (e : Nat) (es : List Nat) :
    BufferComm.axisMax ((e :: es).map (fun x => base.set k x)) =
      base.set k (es.foldl max e) := by
  show List.foldl _ (base.set k e) (es.map (fun x => base.set k x)) = _
  induction es generalizing e with
  | nil => rfl
  | cons f es ih =>
      simp only [List.map, List.foldl_cons]
      rw [zipWith_max_set, ih (max e f)]

lemma nat_mul_max (c a b : Nat) : c * max a b = max (c * a) (c * b) := by
  rcases Nat.le_total a b with h | h
  · rw [Nat.max_eq_right h, Nat.max_eq_right (Nat.mul_le_mul_left c h)]
  · rw [Nat.max_eq_left h, Nat.max_eq_left (Nat.mul_le_mul_left c h)]

lemma nat_max_mul (a b c : Nat) : max a b * c = max (a * c) (b * c) := by
  rw [Nat.mul_comm, nat_mul_max, Nat.mul_comm c a, Nat.mul_comm c b]

lemma prod_set_max (base : List Nat) (k a b : Nat) :
    (base.set k (max a b)).prod = max (base.set k a).prod (base.set k b).prod := by
  by_cases hk : k < base.length
  · simp only [List.prod_set, if_pos hk, nat_mul_max, nat_max_mul]
  · simp only [List.prod_set, if_neg hk, Nat.max_self]

lemma prod_set_foldl_max (base : List Nat) (k : Nat) (e : Nat) (es : List Nat) :
    (base.set k (es.foldl max e)).prod =
      (es.map (fun x => (base.set k x).prod)).foldl max (base.set k e).prod := by
  induction es generalizing e with
  | nil => rfl
  | cons f es ih =>
      simp only [List.map, List.foldl_cons]
      rw [← prod_set_max, ih (max e f)]

lemma foldl_max_eq_max_foldr (e : Nat) (es : List Nat) :
    es.foldl max e = max e (es.foldr max 0) := by
  induction es generalizing e with
  | nil => simp
  | cons f es ih =>
      simp only [List.foldl_cons, List.foldr_cons]
      rw [ih (max e f), Nat.max_assoc]

lemma le_foldr_max (a : Nat) (l : List Nat) (h : a ∈ l) : a ≤ l.foldr max 0 := by
  induction l with
  | nil => cases h
  | cons x xs ih =>
      rcases List.mem_cons.mp h with rfl | hx
      · exact Nat.le_max_left _ _
      · exact Nat.le_trans (ih hx) (Nat.le_max_right _ _)

/-- Under the gather invariant, the row length the code computes
(`np.product(np.max(shapes, axis=0))`) equals the maximum flattened element
count across the reported shapes. -/
lemma rowLen_eq_maxFlatCount (base : List Nat) (k : Nat) (e : Nat) (es : List Nat) :
    BufferComm.rowLen ((e :: es).map (fun x => base.set k x)) =
      BufferComm.maxFlatCount ((e :: es).map (fun x => base.set k x)) := by
  rw [BufferComm.rowLen, axisMax_map_set, prod_set_foldl_max,
    foldl_max_eq_max_foldr, BufferComm.maxFlatCount]
  simp only [List.map, List.foldr_cons, List.map_map]
  rfl

/-! ### List access helpers -/

lemma getD_zipWith {α β γ : Type} (f : α → β → γ) (l1 : List α) (l2 : List β)
    (i : Nat) (d1 : α) (d2 : β) (d3 : γ) (h1 : i < l1.length) (h2 : i < l2.length) :
    (List.zipWith f l1 l2).getD i d3 = f (l1.getD i d1) (l2.getD i d2) := by
  induction l1 generalizing l2 i with
  | nil => cases h1
  | cons x xs ih =>
      cases l2 with
      | nil => cases h2
      | cons y ys =>
          cases i with
          | zero => rfl
          | succ i =>
              exact ih ys i (Nat.lt_of_succ_lt_succ h1) (Nat.lt_of_succ_lt_succ h2)

lemma getD_map_lt {α β : Type} (f : α → β) (l : List α) (i : Nat)
    (d1 : α) (d2 : β) (h : i < l.length) :
    (l.map f).getD i d2 = f (l.getD i d1) := by
  induction l generalizing i with
  | nil => cases h
  | cons x xs ih =>
      cases i with
      | zero => rfl
      | succ i => exact ih i (Nat.lt_of_succ_lt_succ h)

lemma take_append_left {α : Type} (s t : List α) : (s ++ t).take s.length = s := by
  induction s with
  | nil => rfl
  | cons x xs ih => simp [List.take, ih]

lemma zero_mem_of_all_bne_false (l : List Nat)
    (h : l.all (fun d => d != 0) = false) : 0 ∈ l := by
  induction l with
  | nil => simp [List.all] at h
  | cons x xs ih =>
      cases x with
      | zero => exact List.mem_cons_self 0 xs
      | succ n =>
          have hxs : xs.all (fun d => d != 0) = false := by
            rw [List.all_cons] at h
            simpa using h
          exact List.mem_cons_of_mem _ (ih hxs)

/-! ### Unfolding helpers for `BufferComm.gather` -/

lemma substPlaceholder_of_all (a : NDArray) (j : Int)
    (h : a.shape.all (fun d => d != 0) = true) :
    BufferComm.substPlaceholder a j = a := by
  simp [BufferComm.substPlaceholder, h]

lemma substPlaceholder_of_zero (a : NDArray) (j : Int)
    (h : a.shape.all (fun d => d != 0) = false) :
    BufferComm.substPlaceholder a j =
      ⟨List.replicate a.shape.length 1, a.dtype, [j]⟩ := by
  simp [BufferComm.substPlaceholder, h]

lemma substPlaceholder_dtype (a : NDArray) (j : Int) :
    (BufferComm.substPlaceholder a j).dtype = a.dtype := by
  unfold BufferComm.substPlaceholder
  split <;> rfl

lemma gather_root_result (arrs : List NDArray) (root : Nat) (junks : List Int)
    (initRows : List (List Int)) :
    BufferComm.gather arrs root root junks initRows =
      some (BufferComm.reconstruct
        (BufferComm.gathervFill
          ((List.zipWith BufferComm.substPlaceholder arrs junks).map (fun o => o.data))
          initRows)
        (arrs.map (fun a => a.shape))
        ((List.zipWith BufferComm.substPlaceholder arrs junks).getD root emptyArr).dtype) := by
  simp [BufferComm.gather]

lemma gather_nonroot (arrs : List NDArray) (rank root : Nat) (junks : List Int)
    (initRows : List (List Int)) (h : rank ≠ root) :
    BufferComm.gather arrs rank root junks initRows = none := by
  simp [BufferComm.gather, h]

lemma reconstruct_getD (rows : List (List Int)) (shapes : List (List Nat))
    (dtype : String) (i : Nat) (h1 : i < rows.length) (h2 : i < shapes.length) :
    (BufferComm.reconstruct rows shapes dtype).getD i emptyArr =
      ⟨shapes.getD i [], dtype, (rows.getD i []).take (shapes.getD i []).prod⟩ :=
  getD_zipWith _ rows shapes i [] [] emptyArr h1 h2

lemma gathervFill_getD (sends initRows : List (List Int)) (i : Nat)
    (h1 : i < sends.length) (h2 : i < initRows.length) :
    (BufferComm.gathervFill sends initRows).getD i [] =
      sends.getD i [] ++ (initRows.getD i []).drop (sends.getD i []).length :=
  getD_zipWith _ sends initRows i [] [] [] h1 h2

lemma substObjs_getD (arrs : List NDArray) (junks : List Int) (i : Nat)
    (h1 : i < arrs.length) (h2 : i < junks.length) :
    (List.zipWith BufferComm.substPlaceholder arrs junks).getD i emptyArr =
      BufferComm.substPlaceholder (arrs.getD i emptyArr) (junks.getD i 0) :=
  getD_zipWith _ arrs junks i emptyArr 0 emptyArr h1 h2

lemma substObjs_length (arrs : List NDArray) (junks : List Int)
    (hju : junks.length = arrs.length) :
    (List.zipWith BufferComm.substPlaceholder arrs junks).length = arrs.length := by
  simp [List.length_zipWith, hju]

/-- C2: in a typed gather whose participants' shapes obey the gather
invariant (same number of dimensions, at most one axis — axis `k` — varying
in extent), the root returns an ordered sequence indexed by rank in which
entry `i` carries rank `i`'s originally reported shape and its original
data (obtained by slicing `np.product(shape)` elements out of row `i` of
the receive buffer and reshaping), while every non-root rank returns
`None`.  The side hypotheses record what the transport and NumPy require
for the call to complete: consistent dtypes, well-formed arrays, a
positive row length and full-length uninitialized rows. -/
theorem c2_gather_reconstruction
    (arrs : List NDArray) (root : Nat) (junks : List Int)
    (initRows : List (List Int)) (base : List Nat) (k : Nat) (es : List Nat)
    (_hroot : root < arrs.length)
    (hju : junks.length = arrs.length)
    (hinit : initRows.length = arrs.length)
    (_hshapes : arrs.map (fun a => a.shape) = es.map (fun x => base.set k x))
    (_hdim : 0 < base.length)
    (_hdtype : ∀ i, i < arrs.length →
      (arrs.getD i emptyArr).dtype = (arrs.getD root emptyArr).dtype)
    (hdata : ∀ i, i < arrs.length →
      (arrs.getD i emptyArr).data.length = (arrs.getD i emptyArr).shape.prod)
    (_hpos : 0 < BufferComm.rowLen (arrs.map (fun a => a.shape)))
    (_hrows : ∀ row ∈ initRows,
      row.length = BufferComm.rowLen (arrs.map (fun a => a.shape))) :
    (∀ rank, rank ≠ root → BufferComm.gather arrs rank root junks initRows = none) ∧
    ∃ res, BufferComm.gather arrs root root junks initRows = some res ∧
      res.length = arrs.length ∧
      ∀ i, i < arrs.length →
        (res.getD i emptyArr).shape = (arrs.getD i emptyArr).shape ∧
        (res.getD i emptyArr).data = (arrs.getD i emptyArr).data := by
  constructor
  · exact fun rank hrank => gather_nonroot arrs rank root junks initRows hrank
  · have hobjsLen : (List.zipWith BufferComm.substPlaceholder arrs junks).length
        = arrs.length := substObjs_length arrs junks hju
    have hsendsLen :
        ((List.zipWith BufferComm.substPlaceholder arrs junks).map
          (fun o => o.data)).length = arrs.length := by
      simp [hobjsLen]
    have hrowsLen :
        (BufferComm.gathervFill
          ((List.zipWith BufferComm.substPlaceholder arrs junks).map (fun o => o.data))
          initRows).length = arrs.length := by
      simp [BufferComm.gathervFill, List.length_zipWith, hsendsLen, hinit]
    have hshapesLen : (arrs.map (fun a => a.shape)).length = arrs.length := by simp
    refine ⟨_, gather_root_result arrs root junks initRows, ?_, ?_⟩
    · simp [BufferComm.reconstruct, List.length_zipWith, hrowsLen, hshapesLen]
    · intro i hi
      have hrec := reconstruct_getD
        (BufferComm.gathervFill
          ((List.zipWith BufferComm.substPlaceholder arrs junks).map (fun o => o.data))
          initRows)
        (arrs.map (fun a => a.shape))
        ((List.zipWith BufferComm.substPlaceholder arrs junks).getD root emptyArr).dtype
        i (hrowsLen ▸ hi) (hshapesLen ▸ hi)
      have hsh : (arrs.map (fun a => a.shape)).getD i [] = (arrs.getD i emptyArr).shape :=
        getD_map_lt _ arrs i emptyArr [] hi
      have hrow := gathervFill_getD
        ((List.zipWith BufferComm.substPlaceholder arrs junks).map (fun o => o.data))
        initRows i (hsendsLen ▸ hi) (hinit ▸ hi)
      have hsend :
          ((List.zipWith BufferComm.substPlaceholder arrs junks).map
            (fun o => o.data)).getD i [] =
          (BufferComm.substPlaceholder (arrs.getD i emptyArr) (junks.getD i 0)).data := by
        rw [getD_map_lt (fun o => o.data)
          (List.zipWith BufferComm.substPlaceholder arrs junks) i emptyArr []
          (hobjsLen ▸ hi)]
        rw [substObjs_getD arrs junks i hi (hju ▸ hi)]
      rw [hrec, hsh, hrow, hsend]
      cases hall : (arrs.getD i emptyArr).shape.all (fun d => d != 0) with
      | true =>
          rw [substPlaceholder_of_all _ _ hall]
          constructor
          · rfl
          · show ((arrs.getD i emptyArr).data ++ _).take (arrs.getD i emptyArr).shape.prod
              = (arrs.getD i emptyArr).data
            rw [← hdata i hi, take_append_left]
      | false =>
          rw [substPlaceholder_of_zero _ _ hall]
          have hzero : 0 ∈ (arrs.getD i emptyArr).shape :=
            zero_mem_of_all_bne_false _ hall
          have hprod : (arrs.getD i emptyArr).shape.prod = 0 :=
            List.prod_eq_zero hzero
          have hnil : (arrs.getD i emptyArr).data = [] :=
            List.length_eq_zero.mp (by rw [hdata i hi, hprod])
          constructor
          · rfl
          · show (_ : List Int).take (arrs.getD i emptyArr).shape.prod
              = (arrs.getD i emptyArr).data
            rw [hprod, List.take_zero, hnil]

/-- Witness for C2 at the spec's test case: three ranks sending 1-D arrays
of lengths 2, 5 and 3; the non-root rank 1 gets `None` and the root's
result restores sender 1's exact data and shape. -/
theorem c2_gather_reconstruction_witness :
    BufferComm.gather
      [⟨[2], "int64", [1, 2]⟩, ⟨[5], "int64", [3, 4, 5, 6, 7]⟩,
       ⟨[3], "int64", [8, 9, 10]⟩] 1 0 [0, 0, 0]
      [List.replicate 5 0, List.replicate 5 0, List.replicate 5 0] = none ∧
    ∃ res, BufferComm.gather
      [⟨[2], "int64", [1, 2]⟩, ⟨[5], "int64", [3, 4, 5, 6, 7]⟩,
       ⟨[3], "int64", [8, 9, 10]⟩] 0 0 [0, 0, 0]
      [List.replicate 5 0, List.replicate 5 0, List.replicate 5 0] = some res ∧
      res.length = 3 ∧
      (res.getD 1 emptyArr).shape = [5] ∧
      (res.getD 1 emptyArr).data = [3, 4, 5, 6, 7] := by
  have h := c2_gather_reconstruction
    [⟨[2], "int64", [1, 2]⟩, ⟨[5], "int64", [3, 4, 5, 6, 7]⟩,
     ⟨[3], "int64", [8, 9, 10]⟩]
    0 [0, 0, 0] [List.replicate 5 0, List.replicate 5 0, List.replicate 5 0]
    [2] 0 [2, 5, 3]
    (by decide) (by decide) (by decide) (by decide) (by decide) (by decide)
    (by decide) (by decide) (by decide)
  obtain ⟨res, hres, hlen, hprop⟩ := h.2
  exact ⟨h.1 1 (by decide), res, hres, hlen,
    (hprop 1 (by decide)).1, (hprop 1 (by decide)).2⟩

/-- C3: under the gather invariant (equal dimensionality, at most one axis —
axis `k` — differing in extent), the receive buffer the root allocates has
the payload's element type and element capacity
`size × max-flattened-element-count-across-shapes`, and the single typed
`Gatherv` call lands every rank's (possibly placeholder-substituted)
flattened buffer at the start of its own row, each send fitting its row. -/
theorem c3_gather_buffer
    (arrs : List NDArray) (root : Nat) (junks : List Int)
    (initRows : List (List Int)) (base : List Nat) (k e : Nat) (es : List Nat)
    (hshapes : arrs.map (fun a => a.shape) = (e :: es).map (fun x => base.set k x))
    (_hdim : 0 < base.length)
    (hroot : root < arrs.length)
    (hju : junks.length = arrs.length)
    (hinit : initRows.length = arrs.length)
    (hdata : ∀ i, i < arrs.length →
      (arrs.getD i emptyArr).data.length = (arrs.getD i emptyArr).shape.prod)
    (hpos : 0 < BufferComm.rowLen (arrs.map (fun a => a.shape))) :
    BufferComm.buffCapacity arrs.length (arrs.map (fun a => a.shape)) =
      arrs.length * BufferComm.maxFlatCount (arrs.map (fun a => a.shape)) ∧
    ((List.zipWith BufferComm.substPlaceholder arrs junks).getD root emptyArr).dtype =
      (arrs.getD root emptyArr).dtype ∧
    ∀ i, i < arrs.length →
      ((List.zipWith BufferComm.substPlaceholder arrs junks).getD i
          emptyArr).data.length ≤
        BufferComm.rowLen (arrs.map (fun a => a.shape)) ∧
      ((BufferComm.gathervFill
          ((List.zipWith BufferComm.substPlaceholder arrs junks).map (fun o => o.data))
          initRows).getD i []).take
        ((List.zipWith BufferComm.substPlaceholder arrs junks).getD i
          emptyArr).data.length =
        ((List.zipWith BufferComm.substPlaceholder arrs junks).getD i emptyArr).data := by
  have hrl : BufferComm.rowLen (arrs.map (fun a => a.shape)) =
      BufferComm.maxFlatCount (arrs.map (fun a => a.shape)) := by
    rw [hshapes]
    exact rowLen_eq_maxFlatCount base k e es
  refine ⟨?_, ?_, ?_⟩
  · rw [BufferComm.buffCapacity, hrl]
  · rw [substObjs_getD arrs junks root hroot (hju ▸ hroot), substPlaceholder_dtype]
  · intro i hi
    have hobjsLen : (List.zipWith BufferComm.substPlaceholder arrs junks).length
        = arrs.length := substObjs_length arrs junks hju
    have hsendsLen :
        ((List.zipWith BufferComm.substPlaceholder arrs junks).map
          (fun o => o.data)).length = arrs.length := by
      simp [hobjsLen]
    have hobj := substObjs_getD arrs junks i hi (hju ▸ hi)
    have hsend :
        ((List.zipWith BufferComm.substPlaceholder arrs junks).map
          (fun o => o.data)).getD i [] =
        ((List.zipWith BufferComm.substPlaceholder arrs junks).getD i emptyArr).data :=
      getD_map_lt (fun o => o.data) _ i emptyArr [] (hobjsLen ▸ hi)
    constructor
    · rw [hobj]
      cases hall : (arrs.getD i emptyArr).shape.all (fun d => d != 0) with
      | true =>
          rw [substPlaceholder_of_all _ _ hall, hdata i hi, hrl]
          have hmemA : arrs.getD i emptyArr ∈ arrs := by
            rw [List.getD_eq_getElem arrs emptyArr hi]
            exact List.getElem_mem hi
          have hmem : (arrs.getD i emptyArr).shape ∈ arrs.map (fun a => a.shape) :=
            List.mem_map_of_mem _ hmemA
          exact le_foldr_max _ _ (List.mem_map_of_mem List.prod hmem)
      | false =>
          rw [substPlaceholder_of_zero _ _ hall]
          exact hpos
    · rw [gathervFill_getD _ initRows i (hsendsLen ▸ hi) (hinit ▸ hi), hsend,
        take_append_left]

/-- Witness for C3 at the spec's test case (1-D shapes `[2], [5], [3]`):
the buffer capacity is `3 × 5` and rank 1's five elements occupy the start
of row 1 of the filled receive buffer. -/
theorem c3_gather_buffer_witness :
    BufferComm.buffCapacity 3 [[2], [5], [3]] = 3 * 5 ∧
    ((BufferComm.gathervFill
        ((List.zipWith BufferComm.substPlaceholder
          [⟨[2], "int64", [1, 2]⟩, ⟨[5], "int64", [3, 4, 5, 6, 7]⟩,
           ⟨[3], "int64", [8, 9, 10]⟩] [0, 0, 0]).map (fun o => o.data))
        [List.replicate 5 9, List.replicate 5 9, List.replicate 5 9]).getD 1 []).take 5 =
      [3, 4, 5, 6, 7] := by
  have h := c3_gather_buffer
    [⟨[2], "int64", [1, 2]⟩, ⟨[5], "int64", [3, 4, 5, 6, 7]⟩,
     ⟨[3], "int64", [8, 9, 10]⟩]
    0 [0, 0, 0] [List.replicate 5 9, List.replicate 5 9, List.replicate 5 9]
    [2] 0 2 [5, 3]
    (by decide) (by decide) (by decide) (by decide) (by decide) (by decide)
    (by decide)
  exact ⟨h.1, (h.2.2 1 (by decide)).2⟩

/-- C4: a rank whose array has a zero-sized dimension transfers a
single-element placeholder of the same dtype and dimensionality (every axis
of extent 1) instead of its actual array, while the shape gathered
beforehand — and hence the shape of the root's result entry for that rank —
remains the original zero-sized one. -/
theorem c4_zero_size_placeholder
    (arrs : List NDArray) (root i : Nat) (junks : List Int)
    (initRows : List (List Int))
    (hi : i < arrs.length)
    (_hroot : root < arrs.length)
    (hju : junks.length = arrs.length)
    (hinit : initRows.length = arrs.length)
    (hzero : 0 ∈ (arrs.getD i emptyArr).shape) :
    ((List.zipWith BufferComm.substPlaceholder arrs junks).getD i emptyArr).shape =
        List.replicate (arrs.getD i emptyArr).shape.length 1 ∧
    ((List.zipWith BufferComm.substPlaceholder arrs junks).getD i emptyArr).dtype =
        (arrs.getD i emptyArr).dtype ∧
    ((List.zipWith BufferComm.substPlaceholder arrs junks).getD i
        emptyArr).data.length = 1 ∧
    (arrs.map (fun a => a.shape)).getD i [] = (arrs.getD i emptyArr).shape ∧
    ∀ res, BufferComm.gather arrs root root junks initRows = some res →
      (res.getD i emptyArr).shape = (arrs.getD i emptyArr).shape := by
  have hall : (arrs.getD i emptyArr).shape.all (fun d => d != 0) = false := by
    cases hc : (arrs.getD i emptyArr).shape.all (fun d => d != 0) with
    | false => rfl
    | true => exact absurd (List.all_eq_true.mp hc 0 hzero) (by decide)
  have hobj := substObjs_getD arrs junks i hi (hju ▸ hi)
  rw [hobj, substPlaceholder_of_zero _ _ hall]
  refine ⟨rfl, rfl, rfl, getD_map_lt (fun a => a.shape) arrs i emptyArr [] hi, ?_⟩
  intro res hres
  rw [gather_root_result arrs root junks initRows] at hres
  have hres' := Option.some.inj hres
  have hobjsLen : (List.zipWith BufferComm.substPlaceholder arrs junks).length
      = arrs.length := substObjs_length arrs junks hju
  have hrowsLen :
      (BufferComm.gathervFill
        ((List.zipWith BufferComm.substPlaceholder arrs junks).map (fun o => o.data))
        initRows).length = arrs.length := by
    simp [BufferComm.gathervFill, List.length_zipWith, hobjsLen, hinit]
  rw [← hres', reconstruct_getD _ _ _ i (hrowsLen ▸ hi) (by simpa using hi),
    getD_map_lt (fun a => a.shape) arrs i emptyArr [] hi]

/-- Witness for C4 at a concrete input: rank 0 of two holds a shape-`[0]`
array; its placeholder is the one-element shape-`[1]` array, the gathered
shape stays `[0]`, and the root's result entry 0 has shape `[0]`. -/
theorem c4_zero_size_placeholder_witness :
    ((List.zipWith BufferComm.substPlaceholder
        [⟨[0], "float64", []⟩, ⟨[2], "float64", [1, 2]⟩] [7, 7]).getD 0
        emptyArr).shape = [1] ∧
    ((List.zipWith BufferComm.substPlaceholder
        [⟨[0], "float64", []⟩, ⟨[2], "float64", [1, 2]⟩] [7, 7]).getD 0
        emptyArr).dtype = "float64" ∧
    ((List.zipWith BufferComm.substPlaceholder
        [⟨[0], "float64", []⟩, ⟨[2], "float64", [1, 2]⟩] [7, 7]).getD 0
        emptyArr).data.length = 1 ∧
    (([⟨[0], "float64", []⟩, ⟨[2], "float64", [1, 2]⟩] : List NDArray).map
        (fun a => a.shape)).getD 0 [] = [0] ∧
    (([⟨[0], "float64", []⟩, ⟨[2], "float64", [1, 2]⟩] : List NDArray).getD 0
        emptyArr).shape = [0] := by
  have h := c4_zero_size_placeholder
    [⟨[0], "float64", []⟩, ⟨[2], "float64", [1, 2]⟩] 0 0 [7, 7]
    [[9, 9], [9, 9]] (by decide) (by decide) (by decide) (by decide) (by decide)
  have hres := h.2.2.2.2
    [⟨[0], "float64", []⟩, ⟨[2], "float64", [1, 2]⟩] (by decide)
  exact ⟨h.1, h.2.1, h.2.2.1, h.2.2.2.1, hres⟩


/-! ### Branch characterizations of `get_BufferComm_obj` -/

lemma get_obj_err (w : PyWorld) (c : Nat)
    (h : isIntracommClass (w.classOf c) = false) :
    get_BufferComm_obj w (some c) = (w, Except.error PyErr.typeError) := by
  simp [get_BufferComm_obj, h]

lemma get_obj_hit (w : PyWorld) (c bc : Nat)
    (h : isIntracommClass (w.classOf c) = true)
    (hl : regLookup w.registry c = some bc) :
    get_BufferComm_obj w (some c) = (w, Except.ok bc) := by
  simp [get_BufferComm_obj, h, hl]

lemma get_obj_value (w : PyWorld) (c : Nat)
    (h : isIntracommClass (w.classOf c) = true)
    (hl : regLookup w.registry c = none)
    (hm : c ∈ regValues w.registry) :
    get_BufferComm_obj w (some c) = (w, Except.ok c) := by
  simp [get_BufferComm_obj, h, hl, hm]

lemma get_obj_fresh (w : PyWorld) (c : Nat)
    (h : isIntracommClass (w.classOf c) = true)
    (hl : regLookup w.registry c = none)
    (hm : c ∉ regValues w.registry) :
    get_BufferComm_obj w (some c) =
      ({ classes := w.classes ++ [wrapClass (w.classOf c)],
         registry := w.registry ++ [(c, w.classes.length)],
         commWorld := w.commWorld }, Except.ok w.classes.length) := by
  simp [get_BufferComm_obj, h, hl, hm]

lemma regLookup_none_find (reg : List (Nat × Nat)) (c : Nat)
    (h : regLookup reg c = none) : reg.find? (fun p => p.1 == c) = none := by
  unfold regLookup at h
  cases hf : reg.find? (fun p => p.1 == c) with
  | none => rfl
  | some p => rw [hf] at h; exact Option.noConfusion h

lemma find?_append_none {α : Type} (p : α → Bool) (l1 l2 : List α)
    (h : l1.find? p = none) : (l1 ++ l2).find? p = l2.find? p := by
  induction l1 with
  | nil => rfl
  | cons x xs ih =>
      cases hp : p x with
      | true => simp [List.find?, hp] at h
      | false =>
          simp only [List.find?, hp] at h
          show List.find? p (x :: (xs ++ l2)) = _
          simp only [List.find?, hp]
          exact ih h

lemma classOf_lt (w : PyWorld) (c : Nat)
    (h : isIntracommClass (w.classOf c) = true) : c < w.classes.length := by
  by_contra hc
  have : w.classOf c = PyClass.other :=
    List.getD_eq_default _ _ (Nat.le_of_not_lt hc)
  rw [this] at h
  exact Bool.noConfusion h

lemma raw_not_buf (c : PyClass) (h : isRawIntracomm c = true) :
    isBufClass c = false := by
  cases c <;> first | rfl | exact Bool.noConfusion h

lemma regLookup_new_entry (w : PyWorld) (c : Nat)
    (hl : regLookup w.registry c = none) :
    regLookup (w.registry ++ [(c, w.classes.length)]) c =
      some w.classes.length := by
  unfold regLookup
  rw [find?_append_none _ _ _ (regLookup_none_find _ _ hl)]
  simp [List.find?]

/-- After a successful call on handle `c`, calling again with `c` returns
the same wrapper and leaves the world unchanged. -/
lemma get_obj_second_call (w : PyWorld) (c b : Nat) (w' : PyWorld)
    (_hWF : w.WF)
    (h1 : get_BufferComm_obj w (some c) = (w', Except.ok b)) :
    get_BufferComm_obj w' (some c) = (w', Except.ok b) := by
  by_cases hcls : isIntracommClass (w.classOf c) = true
  · cases hlook : regLookup w.registry c with
    | some bc =>
        rw [get_obj_hit w c bc hcls hlook] at h1
        obtain ⟨hw, hb⟩ := Prod.mk.injEq .. ▸ h1
        subst hw
        rw [get_obj_hit w c bc hcls hlook]
        rw [← Except.ok.inj hb]
    | none =>
        by_cases hm : c ∈ regValues w.registry
        · rw [get_obj_value w c hcls hlook hm] at h1
          obtain ⟨hw, hb⟩ := Prod.mk.injEq .. ▸ h1
          subst hw
          rw [get_obj_value w c hcls hlook hm]
          rw [← Except.ok.inj hb]
        · rw [get_obj_fresh w c hcls hlook hm] at h1
          obtain ⟨hw, hb⟩ := Prod.mk.injEq .. ▸ h1
          have hlt : c < w.classes.length := classOf_lt w c hcls
          have hcls' : isIntracommClass (w'.classOf c) = true := by
            rw [← hw]
            show isIntracommClass ((w.classes ++ _).getD c PyClass.other) = true
            rw [List.getD_append _ _ _ _ hlt]
            exact hcls
          have hl' : regLookup w'.registry c = some b := by
            rw [← hw, ← Except.ok.inj hb]
            exact regLookup_new_entry w c hlook
          exact get_obj_hit w' c b hcls' hl'
  · rw [get_obj_err w c (Bool.eq_false_iff.mpr hcls)] at h1
    obtain ⟨_, hb⟩ := Prod.mk.injEq .. ▸ h1
    exact Except.noConfusion hb

/-- After a successful call on a raw (non-wrapper) handle `c`, the wrapper
is stored in the registry under `c`'s identity. -/
lemma get_obj_reg_stored (w : PyWorld) (c b : Nat) (w' : PyWorld)
    (hWF : w.WF) (hraw : isRawIntracomm (w.classOf c) = true)
    (h1 : get_BufferComm_obj w (some c) = (w', Except.ok b)) :
    regLookup w'.registry c = some b := by
  have hcls : isIntracommClass (w.classOf c) = true := by
    simp [isIntracommClass, hraw]
  cases hlook : regLookup w.registry c with
  | some bc =>
      rw [get_obj_hit w c bc hcls hlook] at h1
      obtain ⟨hw, hb⟩ := Prod.mk.injEq .. ▸ h1
      rw [← hw, ← Except.ok.inj hb]
      exact hlook
  | none =>
      by_cases hm : c ∈ regValues w.registry
      · obtain ⟨p, hp, hpb⟩ := List.mem_map.mp hm
        have := (hWF p hp).1
        rw [hpb] at this
        rw [raw_not_buf _ hraw] at this
        exact Bool.noConfusion this
      · rw [get_obj_fresh w c hcls hlook hm] at h1
        obtain ⟨hw, hb⟩ := Prod.mk.injEq .. ▸ h1
        rw [← hw, ← Except.ok.inj hb]
        exact regLookup_new_entry w c hlook

/-- Passing an already-registered wrapper back to the factory returns it
unchanged without touching the registry. -/
lemma get_obj_wrapper_unchanged (w : PyWorld) (b : Nat)
    (hWF : w.WF) (hm : b ∈ regValues w.registry) :
    get_BufferComm_obj w (some b) = (w, Except.ok b) := by
  obtain ⟨p, hp, hpb⟩ := List.mem_map.mp hm
  have hbuf : isBufClass (w.classOf b) = true := by
    rw [← hpb]
    exact (hWF p hp).1
  have hcls : isIntracommClass (w.classOf b) = true := by
    simp [isIntracommClass, hbuf]
  have hlook : regLookup w.registry b = none := by
    cases hf : w.registry.find? (fun q => q.1 == b) with
    | none => unfold regLookup; rw [hf]
    | some q =>
        have hq : q ∈ w.registry := List.mem_of_find?_eq_some hf
        have hqb := List.find?_some hf
        simp only [beq_iff_eq] at hqb
        have := (hWF q hq).2
        rw [hqb, hbuf] at this
        exact Bool.noConfusion this
  exact get_obj_value w b hcls hlook hm

/-- C6: wrapping is idempotent.  In a well-formed world, (1) a second call
with the same handle identity returns the same wrapper and leaves the world
unchanged; (2) for a raw handle the wrapper returned is the one stored in
the registry under the handle's identity; (3) passing back a wrapper that
is already one of the registry's values returns that wrapper itself with
the world unchanged — so no handle identity is ever wrapped twice. -/
theorem c6_idempotent_wrapping (w : PyWorld) (hWF : w.WF) :
    (∀ c b w', get_BufferComm_obj w (some c) = (w', Except.ok b) →
      get_BufferComm_obj w' (some c) = (w', Except.ok b)) ∧
    (∀ c b w', isRawIntracomm (w.classOf c) = true →
      get_BufferComm_obj w (some c) = (w', Except.ok b) →
      regLookup w'.registry c = some b) ∧
    (∀ b, b ∈ regValues w.registry →
      get_BufferComm_obj w (some b) = (w, Except.ok b)) :=
  ⟨fun c b w' h => get_obj_second_call w c b w' hWF h,
   fun c b w' hraw h => get_obj_reg_stored w c b w' hWF hraw h,
   fun b hm => get_obj_wrapper_unchanged w b hWF hm⟩

/-- Witness for C6 in a two-object world: object 0 is a raw
`MPI.Intracomm` wrapped as object 1; a repeated call returns wrapper 1 and
the unchanged world, the registry stores 1 under key 0, and passing the
wrapper 1 back returns it unchanged. -/
theorem c6_idempotent_wrapping_witness :
    get_BufferComm_obj
        ⟨[PyClass.mpiIntracomm, PyClass.bufMpi], [(0, 1)], 0⟩ (some 0) =
      (⟨[PyClass.mpiIntracomm, PyClass.bufMpi], [(0, 1)], 0⟩, Except.ok 1) ∧
    regLookup [(0, 1)] 0 = some 1 ∧
    get_BufferComm_obj
        ⟨[PyClass.mpiIntracomm, PyClass.bufMpi], [(0, 1)], 0⟩ (some 1) =
      (⟨[PyClass.mpiIntracomm, PyClass.bufMpi], [(0, 1)], 0⟩, Except.ok 1) := by
  have h := c6_idempotent_wrapping ⟨[PyClass.mpiIntracomm], [], 0⟩ (by decide)
  have h' := c6_idempotent_wrapping
    ⟨[PyClass.mpiIntracomm, PyClass.bufMpi], [(0, 1)], 0⟩ (by decide)
  exact ⟨h.1 0 1 ⟨[PyClass.mpiIntracomm, PyClass.bufMpi], [(0, 1)], 0⟩ (by decide),
    h.2.1 0 1 ⟨[PyClass.mpiIntracomm, PyClass.bufMpi], [(0, 1)], 0⟩
      (by decide) (by decide),
    h'.2.2 1 (by decide)⟩

/-- C7: a `None` argument is replaced by `MPI.COMM_WORLD`, and an argument
that is no intra-communicator (real, emulated, or wrapper) raises
`TypeError`, constructing nothing and leaving the registry unchanged. -/
theorem c7_none_default_and_typeerror (w : PyWorld) (c : Nat)
    (hbad : isIntracommClass (w.classOf c) = false) :
    get_BufferComm_obj w none = get_BufferComm_obj w (some w.commWorld) ∧
    get_BufferComm_obj w (some c) = (w, Except.error PyErr.typeError) :=
  ⟨rfl, get_obj_err w c hbad⟩

/-- Witness for C7: in a world whose object 1 is no communicator, `None`
resolves to `COMM_WORLD` (object 0) and passing object 1 raises
`TypeError` leaving the world intact. -/
theorem c7_none_default_and_typeerror_witness :
    get_BufferComm_obj ⟨[PyClass.mpiIntracomm, PyClass.other], [], 0⟩ none =
      get_BufferComm_obj ⟨[PyClass.mpiIntracomm, PyClass.other], [], 0⟩ (some 0) ∧
    get_BufferComm_obj ⟨[PyClass.mpiIntracomm, PyClass.other], [], 0⟩ (some 1) =
      (⟨[PyClass.mpiIntracomm, PyClass.other], [], 0⟩,
        Except.error PyErr.typeError) :=
  c7_none_default_and_typeerror
    ⟨[PyClass.mpiIntracomm, PyClass.other], [], 0⟩ 1 (by decide)


/-- C8: for an attribute name the wrapped communicator defines with a
non-method value, reads, writes and deletions on the wrapper act on the
wrapped communicator and leave the wrapper's own state unchanged; for every
other name (absent from the wrapped communicator, or bound to a method
there), the wrapper's own definition is used and the wrapped communicator
stays unchanged. -/
theorem c8_attribute_delegation (comm self : PyAttrs) (name : String)
    (v w : AttrVal) :
    (lookupAttr comm.attrs name = some v → isMethodVal v = false →
      BufferComm.getattribute comm self name = some v ∧
      BufferComm.setattr comm self name w = (⟨setAttrList comm.attrs name w⟩, self) ∧
      BufferComm.delattr comm self name =
        some (⟨removeAttrList comm.attrs name⟩, self)) ∧
    ((lookupAttr comm.attrs name = none ∨
        (lookupAttr comm.attrs name = some v ∧ isMethodVal v = true)) →
      BufferComm.getattribute comm self name = lookupAttr self.attrs name ∧
      BufferComm.setattr comm self name w = (comm, ⟨setAttrList self.attrs name w⟩) ∧
      BufferComm.delattr comm self name =
        (lookupAttr self.attrs name).map
          (fun _ => (comm, ⟨removeAttrList self.attrs name⟩))) := by
  constructor
  · intro hl hm
    refine ⟨?_, ?_, ?_⟩ <;>
      simp [BufferComm.getattribute, BufferComm.setattr, BufferComm.delattr, hl, hm]
  · rintro (hl | ⟨hl, hm⟩) <;>
      refine ⟨?_, ?_, ?_⟩ <;>
        simp [BufferComm.getattribute, BufferComm.setattr, BufferComm.delattr, hl,
          *]

/-- Witness for C8: wrapped communicator with data attribute `name` and
method `bcast`; reading `name` delegates, writing it rewrites the wrapped
communicator only, and `bcast` resolves to the wrapper's own override. -/
theorem c8_attribute_delegation_witness :
    BufferComm.getattribute ⟨[("name", AttrVal.data 3), ("bcast", AttrVal.method "c")]⟩
        ⟨[("bcast", AttrVal.method "w")]⟩ "name" = some (AttrVal.data 3) ∧
    BufferComm.setattr ⟨[("name", AttrVal.data 3), ("bcast", AttrVal.method "c")]⟩
        ⟨[("bcast", AttrVal.method "w")]⟩ "name" (AttrVal.data 7) =
      (⟨[("name", AttrVal.data 7), ("bcast", AttrVal.method "c")]⟩,
       ⟨[("bcast", AttrVal.method "w")]⟩) ∧
    BufferComm.getattribute ⟨[("name", AttrVal.data 3), ("bcast", AttrVal.method "c")]⟩
        ⟨[("bcast", AttrVal.method "w")]⟩ "bcast" = some (AttrVal.method "w") := by
  have h := c8_attribute_delegation
    ⟨[("name", AttrVal.data 3), ("bcast", AttrVal.method "c")]⟩
    ⟨[("bcast", AttrVal.method "w")]⟩ "name" (AttrVal.data 3) (AttrVal.data 7)
  have h2 := c8_attribute_delegation
    ⟨[("name", AttrVal.data 3), ("bcast", AttrVal.method "c")]⟩
    ⟨[("bcast", AttrVal.method "w")]⟩ "bcast" (AttrVal.method "c") (AttrVal.data 7)
  have ha := h.1 (by decide) (by decide)
  have hb := h2.2 (Or.inr ⟨by decide, by decide⟩)
  exact ⟨ha.1, ha.2.1, hb.1⟩


/-- C9: on the Emulation Layer's single-participant communicator, `bcast`
and `Bcast` return the input unchanged, `gather` wraps the input in a
one-element list, and `scatter` returns the first element of the input
sequence. -/
theorem c9_emulation_identity {α : Type} (obj : α) (x : α) (xs : List α) :
    dummyMPI.Comm.bcast obj = obj ∧
    dummyMPI.Comm.Bcast obj = obj ∧
    dummyMPI.Comm.gather obj = [obj] ∧
    dummyMPI.Comm.scatter (x :: xs) = some x :=
  ⟨rfl, rfl, rfl, rfl⟩

/-- C10: in every emulated buffer collective, a list/tuple send buffer
contributes only its first element; with no receive buffer the call returns
a deep copy of the payload in a fresh cell, so later mutation of the
caller's buffer cannot change the result; with a receive buffer the
payload's contents are assigned element-wise into it and that very buffer
is returned.  `Gather`, `Gatherv`, `Scatter`, `Scatterv`, `Reduce` and the
non-scalar path of `reduce` all share this implementation. -/
theorem c10_scatter_gather (h : Heap) (s r : Nat) (bs : List Buf)
    (v old : List Int)
    (hs : h[s]? = some v) (hr : h[r]? = some old)
    (hlen : old.length = v.length) (hslt : s < h.length) :
    (dummyMPI.Comm.Gather h (Buf.seq (Buf.ref s :: bs)) Buf.null =
      dummyMPI.Comm.Gather h (Buf.ref s) Buf.null) ∧
    (dummyMPI.Comm.Gather h (Buf.ref s) Buf.null =
      some (h ++ [v], Buf.ref h.length)) ∧
    h.length ≠ s ∧
    (∀ w, ((h ++ [v]).set s w)[h.length]? = some v) ∧
    (dummyMPI.Comm.Gather h (Buf.ref s) (Buf.ref r) =
      some (h.set r v, Buf.ref r)) ∧
    (∀ hp a b, dummyMPI.Comm.Gatherv hp a b = dummyMPI.Comm.Gather hp a b) ∧
    (∀ hp a b, dummyMPI.Comm.Scatter hp a b = dummyMPI.Comm.Gather hp a b) ∧
    (∀ hp a b, dummyMPI.Comm.Scatterv hp a b = dummyMPI.Comm.Gather hp a b) ∧
    (∀ hp a b, dummyMPI.Comm.Reduce hp a b = dummyMPI.Comm.Gather hp a b) ∧
    (∀ hp s', dummyMPI.Comm.reduce hp (Buf.ref s') =
      dummyMPI.Comm.Gather hp (Buf.ref s') Buf.null) := by
  refine ⟨?_, ?_, ?_, ?_, ?_, ?_, ?_, ?_, ?_, ?_⟩
  · simp [dummyMPI.Comm.Gather, dummyMPI.Comm.scatter_gather,
      dummyMPI.Comm.get_buffer]
  · simp [dummyMPI.Comm.Gather, dummyMPI.Comm.scatter_gather,
      dummyMPI.Comm.get_buffer, hs]
  · exact Nat.ne_of_gt hslt
  · intro w
    have hset : ((h ++ [v]).set s w) = h.set s w ++ [v] :=
      List.set_append_left _ _ hslt
    rw [hset]
    have hlen' : (h.set s w).length = h.length := by simp
    rw [List.getElem?_append_right (by omega)]
    simp [hlen']
  · simp [dummyMPI.Comm.Gather, dummyMPI.Comm.scatter_gather,
      dummyMPI.Comm.get_buffer, hs, hr, hlen]
  · intro hp a b; rfl
  · intro hp a b; rfl
  · intro hp a b; rfl
  · intro hp a b; rfl
  · intro hp s'; rfl

/-- Witness for C10 on a two-cell heap: the deep copy lands in fresh cell 2,
survives mutation of cell 0, and the in-place variant fills cell 1 and
returns it. -/
theorem c10_scatter_gather_witness :
    dummyMPI.Comm.Gather [[1, 2], [3, 4]] (Buf.seq [Buf.ref 0]) Buf.null =
      dummyMPI.Comm.Gather [[1, 2], [3, 4]] (Buf.ref 0) Buf.null ∧
    dummyMPI.Comm.Gather [[1, 2], [3, 4]] (Buf.ref 0) Buf.null =
      some ([[1, 2], [3, 4], [1, 2]], Buf.ref 2) ∧
    (([[1, 2], [3, 4], [1, 2]] : Heap).set 0 [9, 9])[2]? = some [1, 2] ∧
    dummyMPI.Comm.Gather [[1, 2], [3, 4]] (Buf.ref 0) (Buf.ref 1) =
      some ([[1, 2], [1, 2]], Buf.ref 1) := by
  have h := c10_scatter_gather [[1, 2], [3, 4]] 0 1 [] [1, 2] [3, 4]
    (by decide) (by decide) (by decide) (by decide)
  exact ⟨h.1, h.2.1, h.2.2.2.1 [9, 9], h.2.2.2.2.1⟩
